import Mathlib

/-!
Verification of `examples/pytorch/language-modeling/utils/data_collator.py`
(`AlbertDataCollatorForWholeWordMask`).

Modelling conventions:
* Python strings are Lean `String`s; `piece.startswith(c)` for a one-character
  prefix is checked on the first character of the string.
* Python floats (`mlm_probability`) are modelled as exact rationals `ℚ`;
  Python 3 `round` (round-half-to-even, banker's rounding) is modelled by
  `roundHalfEven`.
* `random.shuffle(cand_indexes)` is modelled by quantifying over an arbitrary
  permutation (`List.Perm`) of the candidate group list; the Bernoulli draw
  tensors of `mask_tokens` and the `torch.randint` tensor are modelled as
  explicit boolean / integer list parameters, one entry per tensor position,
  quantified over all outcomes.
* torch tensors of shape (B, N) are lists of rows (`List (List ℤ)`); all
  tensor operations performed by `mask_tokens` are elementwise, and are
  modelled row by row with `List.zipWith` and a three-list variant.
* Fallible Python code (IndexError on `examples[0]` for an empty list,
  KeyError on dict access, `assert`) is modelled with `Except CollatorErr`.
-/

/-- Errors a call can raise: the `assert self.mlm` assertion in `mask_tokens`,
the `examples[0]` IndexError in `__call__` on an empty batch, and a KeyError
for a missing dict key. -/
inductive CollatorErr where
  | assertionError : CollatorErr
  | indexError : CollatorErr
  | keyError : CollatorErr
deriving DecidableEq, Repr

/-- First character of a string equals `c` (models `piece.startswith(c)` for a
single-character prefix). -/
def firstCharIs (s : String) (c : Char) : Bool :=
  match s.data with
  | [] => false
  | a :: _ => a == c

/-- Character codes of the string members of the Python set
`set(list('!"#$%&"()*+,-./:;?@[\\]^_` followed by the brace bar brace tilde
characters`'))` in `_is_start_piece_sp`.  The literal contains `"` twice and,
compared with full ASCII punctuation, lacks the apostrophe (39), `<` (60),
`=` (61) and `>` (62).  The two further elements the Python code adds are the
utf-8 *bytes* objects for the euro and pound signs; in Python 3 a `str` token
never compares equal to a `bytes` object, so those two elements can never
match a token and are not part of the string-membership set. -/
def specialPieceCodes : List Nat :=
  [33, 34, 35, 36, 37, 38, 40, 41, 42, 43, 44, 45, 46, 47,
   58, 59, 63, 64, 91, 92, 93, 94, 95, 96, 123, 124, 125, 126]

/-- The word-boundary marker character U+2581 (LOWER ONE EIGHTH BLOCK). -/
def wordBoundaryMarker : Char := Char.ofNat 9601

/-- Embeds `_is_start_piece_sp(piece)`: true iff the piece starts with the
word-boundary marker, starts with `<`, or is a member of `special_pieces`
(which, for a `str` piece, means: the piece is a single character whose code
is in `specialPieceCodes`). -/
def _is_start_piece_sp (piece : String) : Bool :=
  firstCharIs piece wordBoundaryMarker || firstCharIs piece '<' ||
    (match piece.data with
     | [c] => specialPieceCodes.contains c.toNat
     | _ => false)

/-- Appends index `i` to the last group of `groups` (models
`cand_indexes[-1].append(i)`); on an empty list it creates a singleton group
(this case is unreachable in `_whole_word_mask`, which guards with
`len(cand_indexes) >= 1`). -/
def addToLast : List (List Nat) → Nat → List (List Nat)
  | [], i => [[i]]
  | g :: gs, i =>
    match gs with
    | [] => [g ++ [i]]
    | _ :: _ => g :: addToLast gs i

/-- Token equals the tokenizer's cls or sep token
(models `token in (self.tokenizer.cls_token, self.tokenizer.sep_token)`). -/
def isSpecialTok (cls sep tok : String) : Bool :=
  tok == cls || tok == sep

/-- One iteration of the candidate-group building loop of `_whole_word_mask`
(lines 79-86): skip cls/sep tokens; append a non-word-start token to the last
group when one exists; otherwise open a new group. -/
def cand_step (cls sep : String) (acc : List (List Nat)) (it : Nat × String) :
    List (List Nat) :=
  if isSpecialTok cls sep it.2 then acc
  else if !acc.isEmpty && !(_is_start_piece_sp it.2) then addToLast acc it.1
  else acc ++ [[it.1]]

/-- The candidate index groups `cand_indexes` built by `_whole_word_mask`
before shuffling: fold of `cand_step` over the enumerated token list. -/
def cand_indexes (cls sep : String) (tokens : List String) : List (List Nat) :=
  tokens.enum.foldl (cand_step cls sep) []

/-- Indices of the non-cls/sep entries of an enumerated token list, in order. -/
def nonSpecialPairs (cls sep : String) (l : List (Nat × String)) : List Nat :=
  (l.filter (fun p => !(isSpecialTok cls sep p.2))).map Prod.fst

/-- Positions of a token list whose token is neither the cls token nor the
sep token, in increasing order. -/
def nonSpecialPositions (cls sep : String) (tokens : List String) : List Nat :=
  nonSpecialPairs cls sep tokens.enum

lemma flatten_addToLast (gs : List (List Nat)) (i : Nat) :
    (addToLast gs i).flatten = gs.flatten ++ [i] := by
  induction gs with
  | nil => simp [addToLast]
  | cons g gs ih =>
    cases gs with
    | nil => simp [addToLast]
    | cons h t =>
      have hstep : addToLast (g :: h :: t) i = g :: addToLast (h :: t) i := rfl
      rw [hstep, List.flatten_cons, ih, List.flatten_cons]
      simp

lemma flatten_cand_step (cls sep : String) (acc : List (List Nat))
    (it : Nat × String) :
    (cand_step cls sep acc it).flatten =
      acc.flatten ++ (if isSpecialTok cls sep it.2 then [] else [it.1]) := by
  unfold cand_step
  by_cases hs : isSpecialTok cls sep it.2
  · simp [hs]
  · simp only [hs, if_false, Bool.false_eq_true]
    by_cases hb : !acc.isEmpty && !(_is_start_piece_sp it.2)
    · simp [hb, flatten_addToLast]
    · simp [hb]

lemma flatten_foldl_cand_step (cls sep : String) :
    ∀ (l : List (Nat × String)) (acc : List (List Nat)),
      (l.foldl (cand_step cls sep) acc).flatten =
        acc.flatten ++ nonSpecialPairs cls sep l := by
  intro l
  induction l with
  | nil => intro acc; simp [nonSpecialPairs]
  | cons p l ih =>
    intro acc
    rw [List.foldl_cons, ih, flatten_cand_step]
    by_cases hs : isSpecialTok cls sep p.2
    · simp [nonSpecialPairs, hs]
    · simp [nonSpecialPairs, hs]

lemma flatten_cand_indexes (cls sep : String) (tokens : List String) :
    (cand_indexes cls sep tokens).flatten = nonSpecialPositions cls sep tokens := by
  unfold cand_indexes nonSpecialPositions
  rw [flatten_foldl_cand_step]
  simp

lemma nonSpecialPairs_sublist (cls sep : String) (l : List (Nat × String)) :
    (nonSpecialPairs cls sep l).Sublist (l.map Prod.fst) :=
  List.Sublist.map Prod.fst (List.filter_sublist l)

lemma nonSpecialPositions_pairwise (cls sep : String) (tokens : List String) :
    List.Pairwise (· < ·) (nonSpecialPositions cls sep tokens) := by
  have hsub : (nonSpecialPositions cls sep tokens).Sublist
      (List.range tokens.length) := by
    have := nonSpecialPairs_sublist cls sep tokens.enum
    rwa [List.enum_map_fst] at this
  exact List.Pairwise.sublist hsub (List.pairwise_lt_range tokens.length)

lemma nonSpecialPositions_nodup (cls sep : String) (tokens : List String) :
    (nonSpecialPositions cls sep tokens).Nodup :=
  (nonSpecialPositions_pairwise cls sep tokens).imp Nat.ne_of_lt

lemma mem_nonSpecialPositions (cls sep : String) (tokens : List String)
    (i : Nat) :
    i ∈ nonSpecialPositions cls sep tokens ↔
      ∃ h : i < tokens.length,
        isSpecialTok cls sep (tokens.get ⟨i, h⟩) = false := by
  unfold nonSpecialPositions nonSpecialPairs
  constructor
  · intro hm
    rcases List.mem_map.mp hm with ⟨p, hp, hfst⟩
    rcases List.mem_filter.mp hp with ⟨hpe, hpf⟩
    have hget := List.mem_enum_iff_getElem?.mp hpe
    subst hfst
    rcases List.getElem?_eq_some_iff.mp hget with ⟨hlt, hval⟩
    refine ⟨hlt, ?_⟩
    simpa [List.get_eq_getElem, hval] using hpf
  · rintro ⟨h, hns⟩
    refine List.mem_map.mpr ⟨(i, tokens.get ⟨i, h⟩), ?_, rfl⟩
    refine List.mem_filter.mpr ⟨?_, by simpa [List.get_eq_getElem] using hns⟩
    exact List.mem_enum_iff_getElem?.mpr (by simp [List.get_eq_getElem])

/-- Python 3 `round` to an integer (round-half-to-even), on exact rationals. -/
def roundHalfEven (q : ℚ) : ℤ :=
  if q - ⌊q⌋ < 1/2 then ⌊q⌋
  else if 1/2 < q - ⌊q⌋ then ⌊q⌋ + 1
  else if ⌊q⌋ % 2 = 0 then ⌊q⌋ else ⌊q⌋ + 1

/-- Embeds line 89:
`num_to_predict = min(max_predictions, max(1, int(round(len(input_tokens) * self.mlm_probability))))`. -/
def num_to_predict (max_predictions : Nat) (n : Nat) (mlm_probability : ℚ) : Nat :=
  min max_predictions (max 1 (roundHalfEven (n * mlm_probability))).toNat

/-- The covered-index set built by the selection loop of `_whole_word_mask`
(lines 94-109), walking the (already shuffled) candidate groups:
break once the covered count reaches `ntp`; skip a group that would overshoot
`ntp`; skip a group any of whose indices is already covered; otherwise add all
its indices. -/
def selectCovered (ntp : Nat) : List (List Nat) → Finset Nat → Finset Nat
  | [], covered => covered
  | g :: gs, covered =>
    if ntp ≤ covered.card then covered
    else if ntp < covered.card + g.length then selectCovered ntp gs covered
    else if g.any (fun i => decide (i ∈ covered)) then selectCovered ntp gs covered
    else selectCovered ntp gs (covered ∪ g.toFinset)

/-- Embeds `_whole_word_mask(input_tokens, max_predictions)`: the returned 0/1
label vector (a torch long tensor of length `len(input_tokens)`).  The
`shuffled` parameter is the state of `cand_indexes` after `random.shuffle`;
theorems quantify over every permutation of `cand_indexes cls sep tokens`. -/
def _whole_word_mask (cls sep : String) (mlm_probability : ℚ)
    (max_predictions : Nat) (tokens : List String)
    (shuffled : List (List Nat)) : List ℤ :=
  let ntp := num_to_predict max_predictions tokens.length mlm_probability
  let covered := selectCovered ntp shuffled ∅
  (List.range tokens.length).map (fun i => if i ∈ covered then (1 : ℤ) else 0)

example :
    cand_indexes "[CLS]" "[SEP]" ["[CLS]", "▁the", "▁quick", "fox", "[SEP]"] =
      [[1], [2, 3]] := by decide

example :
    _whole_word_mask "[CLS]" "[SEP]" 1 512 ["[CLS]", "▁the", "▁quick", "fox", "[SEP]"]
      [[1], [2, 3]] = [0, 1, 1, 1, 0] := by with_unfolding_all decide

lemma selectCovered_card_le (ntp : Nat) :
    ∀ (gs : List (List Nat)) (covered : Finset Nat),
      covered.card ≤ ntp → (selectCovered ntp gs covered).card ≤ ntp := by
  intro gs
  induction gs with
  | nil => intro covered h; simpa [selectCovered] using h
  | cons g gs ih =>
    intro covered h
    unfold selectCovered
    by_cases h1 : ntp ≤ covered.card
    · simpa [h1] using h
    · simp only [h1, if_false]
      by_cases h2 : ntp < covered.card + g.length
      · simpa [h2] using ih covered h
      · simp only [h2, if_false]
        by_cases h3 : g.any (fun i => decide (i ∈ covered)) = true
        · simpa [h3] using ih covered h
        · simp only [h3, if_false, Bool.false_eq_true]
          refine ih _ ?_
          calc (covered ∪ g.toFinset).card
              ≤ covered.card + g.toFinset.card := Finset.card_union_le _ _
            _ ≤ covered.card + g.length :=
                Nat.add_le_add_left (List.toFinset_card_le g) _
            _ ≤ ntp := Nat.le_of_not_lt h2

lemma selectCovered_subset (ntp : Nat) :
    ∀ (gs : List (List Nat)) (covered : Finset Nat),
      selectCovered ntp gs covered ⊆ covered ∪ gs.flatten.toFinset := by
  intro gs
  induction gs with
  | nil => intro covered; simp [selectCovered]
  | cons g gs ih =>
    intro covered
    unfold selectCovered
    by_cases h1 : ntp ≤ covered.card
    · simp only [h1, if_true]
      exact Finset.subset_union_left
    · simp only [h1, if_false]
      have hflat : (g :: gs).flatten.toFinset = g.toFinset ∪ gs.flatten.toFinset := by
        simp [List.flatten_cons]
      by_cases h2 : ntp < covered.card + g.length
      · simp only [h2, if_true]
        refine (ih covered).trans ?_
        rw [hflat]
        intro x hx
        rcases Finset.mem_union.mp hx with hx | hx
        · exact Finset.mem_union_left _ hx
        · exact Finset.mem_union_right _ (Finset.mem_union_right _ hx)
      · simp only [h2, if_false]
        by_cases h3 : g.any (fun i => decide (i ∈ covered)) = true
        · simp only [h3, if_true]
          refine (ih covered).trans ?_
          rw [hflat]
          intro x hx
          rcases Finset.mem_union.mp hx with hx | hx
          · exact Finset.mem_union_left _ hx
          · exact Finset.mem_union_right _ (Finset.mem_union_right _ hx)
        · simp only [h3, if_false, Bool.false_eq_true]
          refine (ih _).trans ?_
          rw [hflat, Finset.union_assoc]

lemma count_one_whole_word_mask (cls sep : String) (p : ℚ) (mp : Nat)
    (tokens : List String) (shuffled : List (List Nat)) :
    (_whole_word_mask cls sep p mp tokens shuffled).count 1 =
      ((List.range tokens.length).filter
        (fun i => decide (i ∈ selectCovered
          (num_to_predict mp tokens.length p) shuffled ∅))).length := by
  unfold _whole_word_mask
  rw [List.count_eq_countP, List.countP_map, ← List.countP_eq_length_filter]
  apply List.countP_congr
  intro i _
  by_cases h : i ∈ selectCovered (num_to_predict mp tokens.length p) shuffled ∅ <;>
    simp [h, Function.comp]

lemma length_filter_mem_le_card (n : Nat) (s : Finset Nat) :
    ((List.range n).filter (fun i => decide (i ∈ s))).length ≤ s.card := by
  have hnd : ((List.range n).filter (fun i => decide (i ∈ s))).Nodup :=
    (List.nodup_range n).filter _
  rw [← List.toFinset_card_of_nodup hnd]
  apply Finset.card_le_card
  intro x hx
  have := List.mem_filter.mp (List.mem_toFinset.mp hx)
  simpa using this.2

/-- C1: the candidate index groups built by `_whole_word_mask` partition
exactly the positions whose token is neither the cls token nor the sep token:
their concatenation (in group order) is precisely the list of non-cls/sep
positions in increasing order, it is duplicate-free (each such position lies
in exactly one group, once), it is strictly increasing within and across
groups, and membership is exactly non-specialness. -/
theorem cand_indexes_partition (cls sep : String) (tokens : List String) :
    (cand_indexes cls sep tokens).flatten = nonSpecialPositions cls sep tokens ∧
    List.Pairwise (· < ·) ((cand_indexes cls sep tokens).flatten) ∧
    ((cand_indexes cls sep tokens).flatten).Nodup ∧
    (∀ i, i ∈ (cand_indexes cls sep tokens).flatten ↔
      ∃ h : i < tokens.length,
        isSpecialTok cls sep (tokens.get ⟨i, h⟩) = false) := by
  have hf := flatten_cand_indexes cls sep tokens
  refine ⟨hf, ?_, ?_, ?_⟩
  · rw [hf]; exact nonSpecialPositions_pairwise cls sep tokens
  · rw [hf]; exact nonSpecialPositions_nodup cls sep tokens
  · intro i; rw [hf]; exact mem_nonSpecialPositions cls sep tokens i

/-- C2: for every token list, mask probability, predictions cap and shuffle
outcome, the number of 1-entries in the vector returned by `_whole_word_mask`
is at most `num_to_predict` (that is,
`min(max_predictions, max(1, round(len(tokens) * mask_probability)))`) and at
most the number of non-cls/sep positions. -/
theorem whole_word_mask_count_le (cls sep : String) (p : ℚ) (mp : Nat)
    (tokens : List String) (shuffled : List (List Nat))
    (hperm : shuffled.Perm (cand_indexes cls sep tokens)) :
    (_whole_word_mask cls sep p mp tokens shuffled).count 1 ≤
        num_to_predict mp tokens.length p ∧
    (_whole_word_mask cls sep p mp tokens shuffled).count 1 ≤
        (nonSpecialPositions cls sep tokens).length := by
  set ntp := num_to_predict mp tokens.length p with hntp
  have hcount := count_one_whole_word_mask cls sep p mp tokens shuffled
  rw [← hntp] at hcount
  have hfilter := length_filter_mem_le_card tokens.length
    (selectCovered ntp shuffled ∅)
  constructor
  · rw [hcount]
    refine hfilter.trans ?_
    exact selectCovered_card_le ntp shuffled ∅ (by simp)
  · rw [hcount]
    refine hfilter.trans ?_
    have hsub : selectCovered ntp shuffled ∅ ⊆ shuffled.flatten.toFinset := by
      have := selectCovered_subset ntp shuffled ∅
      simpa using this
    refine (Finset.card_le_card hsub).trans ?_
    have hpf : shuffled.flatten.Perm
        ((cand_indexes cls sep tokens).flatten) := List.Perm.flatten hperm
    rw [List.toFinset_eq_of_perm _ _ hpf, flatten_cand_indexes]
    exact List.toFinset_card_le _

/-- Witness for C2 at a concrete instance: tokens
`["[CLS]", "▁the", "▁quick", "fox", "[SEP]"]`, probability 1, cap 512, and the
identity shuffle outcome. -/
theorem whole_word_mask_count_le_witness :
    ([[1], [2, 3]] : List (List Nat)).Perm
        (cand_indexes "[CLS]" "[SEP]" ["[CLS]", "▁the", "▁quick", "fox", "[SEP]"]) ∧
    ((_whole_word_mask "[CLS]" "[SEP]" 1 512
        ["[CLS]", "▁the", "▁quick", "fox", "[SEP]"] [[1], [2, 3]]).count 1 ≤
      num_to_predict 512 5 1 ∧
     (_whole_word_mask "[CLS]" "[SEP]" 1 512
        ["[CLS]", "▁the", "▁quick", "fox", "[SEP]"] [[1], [2, 3]]).count 1 ≤
      (nonSpecialPositions "[CLS]" "[SEP]"
        ["[CLS]", "▁the", "▁quick", "fox", "[SEP]"]).length) :=
  ⟨by decide, whole_word_mask_count_le "[CLS]" "[SEP]" 1 512
    ["[CLS]", "▁the", "▁quick", "fox", "[SEP]"] [[1], [2, 3]] (by decide)⟩

/-- Three-list pointwise zip, used for the elementwise torch operations of
`mask_tokens` that combine three tensors. -/
def zipWith3 {α β γ δ : Type} (f : α → β → γ → δ) :
    List α → List β → List γ → List δ
  | a :: as, b :: bs, c :: cs => f a b c :: zipWith3 f as bs cs
  | _, _, _ => []

/-- One row of `probability_matrix` after line 134,
`probability_matrix.masked_fill_(special_tokens_mask, value=0.0)`:
the mask-label entry, zeroed where the special-token mask is true. -/
def probability_matrix_row (mask_labels : List ℤ) (stm : List Bool) : List ℤ :=
  List.zipWith (fun m s => if s then 0 else m) mask_labels stm

/-- One row of `masked_indices = probability_matrix.bool()` (line 136):
true exactly at the nonzero entries. -/
def masked_indices_row (prob : List ℤ) : List Bool :=
  prob.map (fun x => x != 0)

/-- One row of `labels` after line 137, `labels[~masked_indices] = -100`. -/
def labels_row (inputs : List ℤ) (masked : List Bool) : List ℤ :=
  List.zipWith (fun l m => if m then l else (-100 : ℤ)) inputs masked

/-- One row of `indices_replaced = bernoulli(0.8).bool() & masked_indices`
(line 140); `b08` is the Bernoulli(0.8) draw outcome for this row. -/
def indices_replaced_row (b08 masked : List Bool) : List Bool :=
  List.zipWith (fun b m => b && m) b08 masked

/-- One row of `inputs` after line 141,
`inputs[indices_replaced] = mask_token_id`. -/
def replace_mask_row (maskId : ℤ) (inputs : List ℤ) (replaced : List Bool) :
    List ℤ :=
  List.zipWith (fun i r => if r then maskId else i) inputs replaced

/-- One row of
`indices_random = bernoulli(0.5).bool() & masked_indices & ~indices_replaced`
(line 144); `b05` is the Bernoulli(0.5) draw outcome for this row. -/
def indices_random_row (b05 masked replaced : List Bool) : List Bool :=
  zipWith3 (fun b m r => b && m && !r) b05 masked replaced

/-- One row of `inputs` after line 146,
`inputs[indices_random] = random_words[indices_random]`; `rand` is the
`torch.randint(len(tokenizer), ...)` draw outcome for this row. -/
def replace_random_row (inputs rand : List ℤ) (randomIdx : List Bool) :
    List ℤ :=
  zipWith3 (fun i w r => if r then w else i) inputs rand randomIdx

/-- The whole per-row corruption of `mask_tokens` (lines 121-149, after the
assert and the special-tokens-mask resolution), composing the per-line
operations above; returns (corrupted inputs row, labels row). -/
def maskTokensRow (maskId : ℤ) (inputs mask_labels : List ℤ) (stm : List Bool)
    (b08 b05 : List Bool) (rand : List ℤ) : List ℤ × List ℤ :=
  let prob := probability_matrix_row mask_labels stm
  let masked := masked_indices_row prob
  let labels := labels_row inputs masked
  let replaced := indices_replaced_row b08 masked
  let inputs1 := replace_mask_row maskId inputs replaced
  let randomIdx := indices_random_row b05 masked replaced
  let inputs2 := replace_random_row inputs1 rand randomIdx
  (inputs2, labels)

/-- Row-by-row application of the elementwise tensor corruption to a (B, N)
batch (every torch operation of `mask_tokens` acts elementwise, so the batch
computation is the independent per-row computation). -/
def corrupt2D (maskId : ℤ) :
    List (List ℤ) → List (List ℤ) → List (List Bool) →
    List (List Bool) → List (List Bool) → List (List ℤ) →
    List (List ℤ) × List (List ℤ)
  | i :: is, m :: ms, s :: ss, a :: as, b :: bs, r :: rs =>
    let row := maskTokensRow maskId i m s a b r
    let rest := corrupt2D maskId is ms ss as bs rs
    (row.1 :: rest.1, row.2 :: rest.2)
  | _, _, _, _, _, _ => ([], [])

/-- The boolean special-tokens mask used by `mask_tokens` (lines 126-132):
when the caller passed none it is derived per row by the tokenizer capability
`get_special_tokens_mask` (modelled by the abstract `getSTM`), otherwise the
provided integer tensor is cast to boolean. -/
def stmOf (getSTM : List ℤ → List Bool) (inputs : List (List ℤ))
    (special_tokens_mask : Option (List (List ℤ))) : List (List Bool) :=
  match special_tokens_mask with
  | none => inputs.map getSTM
  | some m => m.map (List.map (fun x => x != 0))

/-- Embeds `mask_tokens(inputs, mask_labels, special_tokens_mask)` (lines
113-149): asserts the mlm flag, resolves the special-tokens mask, and applies
the elementwise corruption, returning (new inputs, labels).  The Bernoulli
draws (`b08`, `b05`) and the uniform random words (`rand`) are the outcomes
of the three random tensors drawn inside the function. -/
def mask_tokens (mlm : Bool) (maskId : ℤ) (getSTM : List ℤ → List Bool)
    (inputs mask_labels : List (List ℤ))
    (special_tokens_mask : Option (List (List ℤ)))
    (b08 b05 : List (List Bool)) (rand : List (List ℤ)) :
    Except CollatorErr (List (List ℤ) × List (List ℤ)) :=
  if mlm = false then Except.error CollatorErr.assertionError
  else
    Except.ok (corrupt2D maskId inputs mask_labels
      (stmOf getSTM inputs special_tokens_mask) b08 b05 rand)

/-- A position counts as masked after special-token zeroing when the
corresponding entry of `probability_matrix` is nonzero. -/
def maskedAfterZeroing (mask_labels : List ℤ) (stm : List Bool) (c : Nat) :
    Bool :=
  (masked_indices_row (probability_matrix_row mask_labels stm)).getD c false

/-- The `indices_replaced` row computed from the raw draw and mask rows. -/
def replacedIdx (ml : List ℤ) (stm b08 : List Bool) : List Bool :=
  indices_replaced_row b08 (masked_indices_row (probability_matrix_row ml stm))

/-- The `indices_random` row computed from the raw draw and mask rows. -/
def randomIdx (ml : List ℤ) (stm b08 b05 : List Bool) : List Bool :=
  indices_random_row b05 (masked_indices_row (probability_matrix_row ml stm))
    (replacedIdx ml stm b08)

lemma zipWith_getD {α β γ : Type} (f : α → β → γ) (as : List α) (bs : List β)
    (i : Nat) (ha : i < as.length) (hb : i < bs.length)
    (da : α) (db : β) (dc : γ) :
    (List.zipWith f as bs).getD i dc = f (as.getD i da) (bs.getD i db) := by
  have hl : i < (List.zipWith f as bs).length := by
    rw [List.length_zipWith]; exact lt_min ha hb
  rw [List.getD_eq_getElem _ _ hl, List.getD_eq_getElem _ _ ha,
    List.getD_eq_getElem _ _ hb, List.getElem_zipWith]

lemma getD_map_of_lt {α β : Type} (f : α → β) (l : List α) (i : Nat)
    (h : i < l.length) (da : α) (db : β) :
    (l.map f).getD i db = f (l.getD i da) := by
  have hl : i < (l.map f).length := by simpa using h
  rw [List.getD_eq_getElem _ _ hl, List.getD_eq_getElem _ _ h,
    List.getElem_map]

lemma zipWith3_length {α β γ δ : Type} (f : α → β → γ → δ) :
    ∀ (as : List α) (bs : List β) (cs : List γ),
      (zipWith3 f as bs cs).length = min (min as.length bs.length) cs.length := by
  intro as
  induction as with
  | nil => intro bs cs; simp [zipWith3]
  | cons a as ih =>
    intro bs cs
    cases bs with
    | nil => simp [zipWith3]
    | cons b bs =>
      cases cs with
      | nil => simp [zipWith3]
      | cons c cs =>
        simp only [zipWith3, List.length_cons, ih]
        omega

lemma zipWith3_getD {α β γ δ : Type} (f : α → β → γ → δ) :
    ∀ (as : List α) (bs : List β) (cs : List γ) (i : Nat),
      i < as.length → i < bs.length → i < cs.length →
      ∀ (da : α) (db : β) (dc : γ) (dd : δ),
        (zipWith3 f as bs cs).getD i dd =
          f (as.getD i da) (bs.getD i db) (cs.getD i dc) := by
  intro as
  induction as with
  | nil => intro bs cs i ha; simp at ha
  | cons a as ih =>
    intro bs cs i ha hb hc da db dc dd
    cases bs with
    | nil => simp at hb
    | cons b bs =>
      cases cs with
      | nil => simp at hc
      | cons c cs =>
        cases i with
        | zero => simp [zipWith3]
        | succ i =>
          simp only [zipWith3, List.getD_cons_succ]
          apply ih
          · simpa using ha
          · simpa using hb
          · simpa using hc

lemma maskTokensRow_spec (maskId : ℤ) (inputs ml : List ℤ) (stm : List Bool)
    (b08 b05 : List Bool) (rand : List ℤ) (n c : Nat)
    (hin : inputs.length = n) (hml : ml.length = n) (hstm : stm.length = n)
    (hb08 : b08.length = n) (hb05 : b05.length = n) (hrand : rand.length = n)
    (hc : c < n) :
    ((maskTokensRow maskId inputs ml stm b08 b05 rand).2.getD c 0 =
      if maskedAfterZeroing ml stm c then inputs.getD c 0 else -100) ∧
    ((maskTokensRow maskId inputs ml stm b08 b05 rand).1.getD c 0 =
      if (randomIdx ml stm b08 b05).getD c false then rand.getD c 0
      else if (replacedIdx ml stm b08).getD c false then maskId
      else inputs.getD c 0) ∧
    ((replacedIdx ml stm b08).getD c false =
      (b08.getD c false && maskedAfterZeroing ml stm c)) ∧
    ((randomIdx ml stm b08 b05).getD c false =
      (b05.getD c false && maskedAfterZeroing ml stm c &&
        !(replacedIdx ml stm b08).getD c false)) := by
  have hprobl : (probability_matrix_row ml stm).length = n := by
    simp [probability_matrix_row, List.length_zipWith, hml, hstm]
  have hmaskedl : (masked_indices_row (probability_matrix_row ml stm)).length = n := by
    simp [masked_indices_row, hprobl]
  have hmasked : (masked_indices_row (probability_matrix_row ml stm)).getD c false =
      maskedAfterZeroing ml stm c := rfl
  have hrepll : (replacedIdx ml stm b08).length = n := by
    simp [replacedIdx, indices_replaced_row, List.length_zipWith, hb08, hmaskedl]
  have hrepl : (replacedIdx ml stm b08).getD c false =
      (b08.getD c false && maskedAfterZeroing ml stm c) := by
    unfold replacedIdx indices_replaced_row
    rw [zipWith_getD _ _ _ _ (by omega) (by omega) false false false, hmasked]
  have hrandl : (randomIdx ml stm b08 b05).length = n := by
    simp [randomIdx, indices_random_row, zipWith3_length, hb05, hmaskedl, hrepll]
  have hrand2 : (randomIdx ml stm b08 b05).getD c false =
      (b05.getD c false && maskedAfterZeroing ml stm c &&
        !(replacedIdx ml stm b08).getD c false) := by
    unfold randomIdx indices_random_row
    rw [zipWith3_getD _ _ _ _ _ (by omega) (by omega) (by omega)
      false false false false, hmasked]
  have hlab : (labels_row inputs (masked_indices_row (probability_matrix_row ml stm))).getD c 0 =
      if maskedAfterZeroing ml stm c then inputs.getD c 0 else -100 := by
    unfold labels_row
    rw [zipWith_getD _ _ _ _ (by omega) (by omega) 0 false 0, hmasked]
  have hin1l : (replace_mask_row maskId inputs (replacedIdx ml stm b08)).length = n := by
    simp [replace_mask_row, List.length_zipWith, hin, hrepll]
  have hin1 : (replace_mask_row maskId inputs (replacedIdx ml stm b08)).getD c 0 =
      if (replacedIdx ml stm b08).getD c false then maskId else inputs.getD c 0 := by
    unfold replace_mask_row
    rw [zipWith_getD _ _ _ _ (by omega) (by omega) 0 false 0]
  have hout : (replace_random_row (replace_mask_row maskId inputs (replacedIdx ml stm b08))
        rand (randomIdx ml stm b08 b05)).getD c 0 =
      if (randomIdx ml stm b08 b05).getD c false then rand.getD c 0
      else if (replacedIdx ml stm b08).getD c false then maskId
      else inputs.getD c 0 := by
    unfold replace_random_row
    rw [zipWith3_getD _ _ _ _ _ (by omega) (by omega) (by omega) 0 0 false 0, hin1]
  refine ⟨?_, ?_, hrepl, hrand2⟩
  · show (labels_row inputs (masked_indices_row (probability_matrix_row ml stm))).getD c 0 = _
    exact hlab
  · show (replace_random_row (replace_mask_row maskId inputs
        (indices_replaced_row b08 (masked_indices_row (probability_matrix_row ml stm))))
        rand (indices_random_row b05 (masked_indices_row (probability_matrix_row ml stm))
          (indices_replaced_row b08 (masked_indices_row (probability_matrix_row ml stm))))).getD c 0 = _
    have hre : indices_replaced_row b08 (masked_indices_row (probability_matrix_row ml stm)) =
        replacedIdx ml stm b08 := rfl
    have hra : indices_random_row b05 (masked_indices_row (probability_matrix_row ml stm))
        (replacedIdx ml stm b08) = randomIdx ml stm b08 b05 := rfl
    rw [hre, hra]
    exact hout

lemma corrupt2D_getD (maskId : ℤ) :
    ∀ (iRows mRows : List (List ℤ)) (sRows aRows bRows : List (List Bool))
      (rRows : List (List ℤ)) (r : Nat),
      r < iRows.length → r < mRows.length → r < sRows.length →
      r < aRows.length → r < bRows.length → r < rRows.length →
      (corrupt2D maskId iRows mRows sRows aRows bRows rRows).1.getD r [] =
        (maskTokensRow maskId (iRows.getD r []) (mRows.getD r [])
          (sRows.getD r []) (aRows.getD r []) (bRows.getD r [])
          (rRows.getD r [])).1 ∧
      (corrupt2D maskId iRows mRows sRows aRows bRows rRows).2.getD r [] =
        (maskTokensRow maskId (iRows.getD r []) (mRows.getD r [])
          (sRows.getD r []) (aRows.getD r []) (bRows.getD r [])
          (rRows.getD r [])).2 := by
  intro iRows
  induction iRows with
  | nil => intro mRows sRows aRows bRows rRows r hi; simp at hi
  | cons i iRows ih =>
    intro mRows sRows aRows bRows rRows r hi hm hs ha hb hr
    cases mRows with
    | nil => simp at hm
    | cons m mRows =>
      cases sRows with
      | nil => simp at hs
      | cons s sRows =>
        cases aRows with
        | nil => simp at ha
        | cons a aRows =>
          cases bRows with
          | nil => simp at hb
          | cons b bRows =>
            cases rRows with
            | nil => simp at hr
            | cons rr rRows =>
              cases r with
              | zero => exact ⟨rfl, rfl⟩
              | succ r =>
                simp only [corrupt2D, List.getD_cons_succ]
                apply ih <;> simp_all

lemma mask_tokens_ok (maskId : ℤ) (getSTM : List ℤ → List Bool)
    (inputs ml : List (List ℤ)) (special : Option (List (List ℤ)))
    (b08 b05 : List (List Bool)) (rand : List (List ℤ))
    (out labels : List (List ℤ))
    (hok : mask_tokens true maskId getSTM inputs ml special b08 b05 rand =
      Except.ok (out, labels)) :
    out = (corrupt2D maskId inputs ml (stmOf getSTM inputs special) b08 b05 rand).1 ∧
    labels = (corrupt2D maskId inputs ml (stmOf getSTM inputs special) b08 b05 rand).2 := by
  have h2 : (corrupt2D maskId inputs ml (stmOf getSTM inputs special) b08 b05 rand) =
      (out, labels) := by
    simpa [mask_tokens] using hok
  rw [h2]
  exact ⟨rfl, rfl⟩

/-- C9: `mask_tokens` fails with the assertion error exactly when the mlm flag
is false; with mlm enabled the assertion never fires. -/
theorem mask_tokens_assertion_iff (mlm : Bool) (maskId : ℤ)
    (getSTM : List ℤ → List Bool) (inputs ml : List (List ℤ))
    (special : Option (List (List ℤ))) (b08 b05 : List (List Bool))
    (rand : List (List ℤ)) :
    mask_tokens mlm maskId getSTM inputs ml special b08 b05 rand =
      Except.error CollatorErr.assertionError ↔ mlm = false := by
  cases mlm <;> simp [mask_tokens]

/-- C3 counterexample: the claimed equivalence "label is not -100 exactly when
the position is masked after special-token zeroing" fails at the concrete
input tensor whose (masked) entry is itself -100: the position is masked, the
label keeps the original id -100, and so the label equals -100 at a masked
position. -/
theorem mask_tokens_labels_claim_counterexample :
    mask_tokens true 7 (fun _ => ([] : List Bool)) [[-100]] [[1]] (some [[0]])
      [[false]] [[false]] [[0]] = Except.ok ([[-100]], [[-100]]) ∧
    maskedAfterZeroing [1] [false] 0 = true ∧
    ¬(((([[-100]] : List (List ℤ)).getD 0 []).getD 0 0 ≠ -100) ↔
        maskedAfterZeroing [1] [false] 0 = true) := by
  refine ⟨rfl, rfl, ?_⟩
  intro h
  exact (h.mpr rfl) rfl

/-- C3 (amended): for the result of `mask_tokens` with mlm enabled, the labels
entry equals the original input id at every position masked after
special-token zeroing and equals -100 at every position not masked; the
equivalence "label is not -100 iff the position is masked" holds at every
position whose original input id is not -100 (in particular everywhere for
real token ids, which are nonnegative). -/
theorem mask_tokens_labels_spec
    (maskId : ℤ) (getSTM : List ℤ → List Bool)
    (inputs ml : List (List ℤ)) (special : Option (List (List ℤ)))
    (b08 b05 : List (List Bool)) (rand : List (List ℤ))
    (out labels : List (List ℤ)) (r c n : Nat)
    (hok : mask_tokens true maskId getSTM inputs ml special b08 b05 rand =
      Except.ok (out, labels))
    (hri : r < inputs.length) (hrm : r < ml.length)
    (hrs : r < (stmOf getSTM inputs special).length)
    (hra : r < b08.length) (hrb : r < b05.length) (hrr : r < rand.length)
    (hin : (inputs.getD r []).length = n) (hml2 : (ml.getD r []).length = n)
    (hstm : ((stmOf getSTM inputs special).getD r []).length = n)
    (hb08 : (b08.getD r []).length = n) (hb05 : (b05.getD r []).length = n)
    (hrand : (rand.getD r []).length = n) (hc : c < n) :
    ((labels.getD r []).getD c 0 =
      if maskedAfterZeroing (ml.getD r [])
          ((stmOf getSTM inputs special).getD r []) c
      then (inputs.getD r []).getD c 0 else -100) ∧
    ((inputs.getD r []).getD c 0 ≠ -100 →
      (((labels.getD r []).getD c 0 ≠ -100) ↔
        maskedAfterZeroing (ml.getD r [])
          ((stmOf getSTM inputs special).getD r []) c = true)) := by
  obtain ⟨ho, hl⟩ := mask_tokens_ok maskId getSTM inputs ml special b08 b05
    rand out labels hok
  obtain ⟨h1, h2⟩ := corrupt2D_getD maskId inputs ml
    (stmOf getSTM inputs special) b08 b05 rand r hri hrm hrs hra hrb hrr
  obtain ⟨hlab, hout, hrepl, hrand2⟩ := maskTokensRow_spec maskId
    (inputs.getD r []) (ml.getD r []) ((stmOf getSTM inputs special).getD r [])
    (b08.getD r []) (b05.getD r []) (rand.getD r []) n c
    hin hml2 hstm hb08 hb05 hrand hc
  rw [hl, h2, hlab]
  refine ⟨rfl, ?_⟩
  intro hne
  by_cases hm : maskedAfterZeroing (ml.getD r [])
      ((stmOf getSTM inputs special).getD r []) c = true
  · rw [if_pos hm]
    exact ⟨fun _ => hm, fun _ => hne⟩
  · rw [if_neg hm]
    constructor
    · intro hx
      exact absurd rfl hx
    · intro hmt
      exact absurd hmt hm

/-- Witness for C3 (amended) at a concrete instance: one row, one masked
position with input id 5, which gets replaced by the mask id 7 and labelled 5. -/
theorem mask_tokens_labels_spec_witness :
    mask_tokens true 7 (fun _ => ([] : List Bool)) [[5]] [[1]] (some [[0]])
      [[true]] [[false]] [[9]] = Except.ok ([[7]], [[5]]) ∧
    (((([[5]] : List (List ℤ)).getD 0 []).getD 0 0 =
        if maskedAfterZeroing (([[1]] : List (List ℤ)).getD 0 [])
            ((stmOf (fun _ => ([] : List Bool)) [[5]] (some [[0]])).getD 0 []) 0
        then (([[5]] : List (List ℤ)).getD 0 []).getD 0 0 else -100) ∧
      ((([[5]] : List (List ℤ)).getD 0 []).getD 0 0 ≠ -100 →
        (((([[5]] : List (List ℤ)).getD 0 []).getD 0 0 ≠ -100) ↔
          maskedAfterZeroing (([[1]] : List (List ℤ)).getD 0 [])
            ((stmOf (fun _ => ([] : List Bool)) [[5]] (some [[0]])).getD 0 []) 0
            = true))) :=
  ⟨rfl, mask_tokens_labels_spec 7 (fun _ => ([] : List Bool)) [[5]] [[1]]
    (some [[0]]) [[true]] [[false]] [[9]] [[7]] [[5]] 0 0 1
    rfl (by decide) (by decide) (by decide) (by decide) (by decide) (by decide)
    rfl rfl rfl rfl rfl rfl (by decide)⟩

/-- C4: with a provided special-tokens mask, at every position where that mask
is nonzero (true), the inputs entry returned by `mask_tokens` equals the
original inputs entry, the labels entry is -100, and the corresponding entry
of the zeroed `probability_matrix` is 0; hence with an all-true mask the
mask labels are zeroed everywhere, labels are all -100 and inputs come back
unchanged. -/
theorem mask_tokens_special_frame
    (maskId : ℤ) (getSTM : List ℤ → List Bool)
    (inputs ml sm : List (List ℤ))
    (b08 b05 : List (List Bool)) (rand : List (List ℤ))
    (out labels : List (List ℤ)) (r c n : Nat)
    (hok : mask_tokens true maskId getSTM inputs ml (some sm) b08 b05 rand =
      Except.ok (out, labels))
    (hri : r < inputs.length) (hrm : r < ml.length) (hrsm : r < sm.length)
    (hra : r < b08.length) (hrb : r < b05.length) (hrr : r < rand.length)
    (hin : (inputs.getD r []).length = n) (hml2 : (ml.getD r []).length = n)
    (hsm2 : (sm.getD r []).length = n)
    (hb08 : (b08.getD r []).length = n) (hb05 : (b05.getD r []).length = n)
    (hrand : (rand.getD r []).length = n) (hc : c < n)
    (hspecial : (sm.getD r []).getD c 0 ≠ 0) :
    ((out.getD r []).getD c 0 = (inputs.getD r []).getD c 0) ∧
    ((labels.getD r []).getD c 0 = -100) ∧
    ((probability_matrix_row (ml.getD r [])
        ((stmOf getSTM inputs (some sm)).getD r [])).getD c 0 = 0) := by
  have hstmrow : (stmOf getSTM inputs (some sm)).getD r [] =
      (sm.getD r []).map (fun x => x != 0) := by
    show (sm.map (List.map (fun x => x != 0))).getD r [] = _
    exact getD_map_of_lt _ sm r hrsm [] []
  have hstml : ((stmOf getSTM inputs (some sm)).getD r []).length = n := by
    rw [hstmrow]; simpa using hsm2
  have hrs : r < (stmOf getSTM inputs (some sm)).length := by
    show r < (sm.map (List.map (fun x => x != 0))).length
    simpa using hrsm
  have hstm_true : ((stmOf getSTM inputs (some sm)).getD r []).getD c false = true := by
    rw [hstmrow, getD_map_of_lt _ _ c (by omega) 0 false]
    simpa using hspecial
  have hprob : (probability_matrix_row (ml.getD r [])
      ((stmOf getSTM inputs (some sm)).getD r [])).getD c 0 = 0 := by
    unfold probability_matrix_row
    rw [zipWith_getD _ _ _ _ (by omega) (by omega) 0 false 0, hstm_true]
    simp
  have hprobl : (probability_matrix_row (ml.getD r [])
      ((stmOf getSTM inputs (some sm)).getD r [])).length = n := by
    unfold probability_matrix_row
    rw [List.length_zipWith, hml2, hstml]
    exact Nat.min_self n
  have hmasked : maskedAfterZeroing (ml.getD r [])
      ((stmOf getSTM inputs (some sm)).getD r []) c = false := by
    unfold maskedAfterZeroing masked_indices_row
    rw [getD_map_of_lt _ _ c (by omega) 0 false, hprob]
    simp
  obtain ⟨ho, hl⟩ := mask_tokens_ok maskId getSTM inputs ml (some sm) b08 b05
    rand out labels hok
  obtain ⟨h1, h2⟩ := corrupt2D_getD maskId inputs ml
    (stmOf getSTM inputs (some sm)) b08 b05 rand r hri hrm hrs hra hrb hrr
  obtain ⟨hlab, hout, hrepl, hrand2⟩ := maskTokensRow_spec maskId
    (inputs.getD r []) (ml.getD r [])
    ((stmOf getSTM inputs (some sm)).getD r [])
    (b08.getD r []) (b05.getD r []) (rand.getD r []) n c
    hin hml2 hstml hb08 hb05 hrand hc
  refine ⟨?_, ?_, hprob⟩
  · rw [ho, h1, hout, hrand2, hrepl, hmasked]
    simp
  · rw [hl, h2, hlab, hmasked]
    simp

/-- Witness for C4 at a concrete instance with an all-true special-tokens
mask: the single position is forced unmasked, the input comes back unchanged
and the label is -100. -/
theorem mask_tokens_special_frame_witness :
    mask_tokens true 7 (fun _ => ([] : List Bool)) [[5]] [[1]] (some [[1]])
      [[true]] [[true]] [[9]] = Except.ok ([[5]], [[-100]]) ∧
    (((([[5]] : List (List ℤ)).getD 0 []).getD 0 0 =
        (([[5]] : List (List ℤ)).getD 0 []).getD 0 0) ∧
      ((([[-100]] : List (List ℤ)).getD 0 []).getD 0 0 = -100) ∧
      ((probability_matrix_row (([[1]] : List (List ℤ)).getD 0 [])
          ((stmOf (fun _ => ([] : List Bool)) [[5]] (some [[1]])).getD 0 [])).getD 0 0
        = 0)) :=
  ⟨rfl, mask_tokens_special_frame 7 (fun _ => ([] : List Bool)) [[5]] [[1]]
    [[1]] [[true]] [[true]] [[9]] [[5]] [[-100]] 0 0 1
    rfl (by decide) (by decide) (by decide) (by decide) (by decide) (by decide)
    rfl rfl rfl rfl rfl rfl (by decide) (by decide)⟩

/-- C5: for the result of `mask_tokens` (mlm enabled) and any outcome of the
Bernoulli draws, at every position: the replaced-with-mask-token set and the
replaced-with-random-token set are disjoint subsets of the masked positions;
every masked position falls in exactly one of the three categories
(mask-token, random-token, unchanged); a mask-token position gets the mask id,
a random-token position gets the drawn random word, and every other position
(including every unmasked one) keeps its original input id. -/
theorem mask_tokens_three_way
    (maskId : ℤ) (getSTM : List ℤ → List Bool)
    (inputs ml : List (List ℤ)) (special : Option (List (List ℤ)))
    (b08 b05 : List (List Bool)) (rand : List (List ℤ))
    (out labels : List (List ℤ)) (r c n : Nat)
    (mlr : List ℤ) (stmr b08r b05r : List Bool)
    (hmlr : mlr = ml.getD r [])
    (hstmr : stmr = (stmOf getSTM inputs special).getD r [])
    (hb08r : b08r = b08.getD r []) (hb05r : b05r = b05.getD r [])
    (hok : mask_tokens true maskId getSTM inputs ml special b08 b05 rand =
      Except.ok (out, labels))
    (hri : r < inputs.length) (hrm : r < ml.length)
    (hrs : r < (stmOf getSTM inputs special).length)
    (hra : r < b08.length) (hrb : r < b05.length) (hrr : r < rand.length)
    (hin : (inputs.getD r []).length = n) (hml2 : mlr.length = n)
    (hstm : stmr.length = n) (hb08 : b08r.length = n) (hb05 : b05r.length = n)
    (hrand : (rand.getD r []).length = n) (hc : c < n) :
    ((replacedIdx mlr stmr b08r).getD c false = true →
      maskedAfterZeroing mlr stmr c = true) ∧
    ((randomIdx mlr stmr b08r b05r).getD c false = true →
      maskedAfterZeroing mlr stmr c = true) ∧
    ¬((replacedIdx mlr stmr b08r).getD c false = true ∧
      (randomIdx mlr stmr b08r b05r).getD c false = true) ∧
    (maskedAfterZeroing mlr stmr c = true →
      ((replacedIdx mlr stmr b08r).getD c false = true ∧
        (randomIdx mlr stmr b08r b05r).getD c false = false) ∨
      ((replacedIdx mlr stmr b08r).getD c false = false ∧
        (randomIdx mlr stmr b08r b05r).getD c false = true) ∨
      ((replacedIdx mlr stmr b08r).getD c false = false ∧
        (randomIdx mlr stmr b08r b05r).getD c false = false)) ∧
    ((replacedIdx mlr stmr b08r).getD c false = true →
      (out.getD r []).getD c 0 = maskId) ∧
    ((randomIdx mlr stmr b08r b05r).getD c false = true →
      (out.getD r []).getD c 0 = (rand.getD r []).getD c 0) ∧
    ((replacedIdx mlr stmr b08r).getD c false = false →
      (randomIdx mlr stmr b08r b05r).getD c false = false →
      (out.getD r []).getD c 0 = (inputs.getD r []).getD c 0) ∧
    (maskedAfterZeroing mlr stmr c = false →
      (out.getD r []).getD c 0 = (inputs.getD r []).getD c 0) := by
  subst hmlr hstmr hb08r hb05r
  obtain ⟨ho, hl⟩ := mask_tokens_ok maskId getSTM inputs ml special b08 b05
    rand out labels hok
  obtain ⟨h1, h2⟩ := corrupt2D_getD maskId inputs ml
    (stmOf getSTM inputs special) b08 b05 rand r hri hrm hrs hra hrb hrr
  obtain ⟨hlab, hout, hrepl, hrand2⟩ := maskTokensRow_spec maskId
    (inputs.getD r []) (ml.getD r []) ((stmOf getSTM inputs special).getD r [])
    (b08.getD r []) (b05.getD r []) (rand.getD r []) n c
    hin hml2 hstm hb08 hb05 hrand hc
  have hRM : (replacedIdx (ml.getD r []) ((stmOf getSTM inputs special).getD r [])
      (b08.getD r [])).getD c false = true →
      maskedAfterZeroing (ml.getD r [])
        ((stmOf getSTM inputs special).getD r []) c = true := by
    intro h
    rw [hrepl] at h
    exact (Bool.and_eq_true _ _ |>.mp h).2
  have hQM : (randomIdx (ml.getD r []) ((stmOf getSTM inputs special).getD r [])
      (b08.getD r []) (b05.getD r [])).getD c false = true →
      maskedAfterZeroing (ml.getD r [])
        ((stmOf getSTM inputs special).getD r []) c = true := by
    intro h
    rw [hrand2] at h
    exact ((Bool.and_eq_true _ _ |>.mp (Bool.and_eq_true _ _ |>.mp h).1).2)
  have hRQ : ¬((replacedIdx (ml.getD r []) ((stmOf getSTM inputs special).getD r [])
      (b08.getD r [])).getD c false = true ∧
      (randomIdx (ml.getD r []) ((stmOf getSTM inputs special).getD r [])
        (b08.getD r []) (b05.getD r [])).getD c false = true) := by
    rintro ⟨hR, hQ⟩
    rw [hrand2, hR] at hQ
    simp at hQ
  refine ⟨hRM, hQM, hRQ, ?_, ?_, ?_, ?_, ?_⟩
  · intro _
    cases hRv : (replacedIdx (ml.getD r []) ((stmOf getSTM inputs special).getD r [])
        (b08.getD r [])).getD c false
    · cases hQv : (randomIdx (ml.getD r []) ((stmOf getSTM inputs special).getD r [])
          (b08.getD r []) (b05.getD r [])).getD c false
      · exact Or.inr (Or.inr ⟨rfl, rfl⟩)
      · exact Or.inr (Or.inl ⟨rfl, rfl⟩)
    · cases hQv : (randomIdx (ml.getD r []) ((stmOf getSTM inputs special).getD r [])
          (b08.getD r []) (b05.getD r [])).getD c false
      · exact Or.inl ⟨rfl, rfl⟩
      · exact absurd ⟨hRv, hQv⟩ hRQ
  · intro hR
    have hQf : (randomIdx (ml.getD r []) ((stmOf getSTM inputs special).getD r [])
        (b08.getD r []) (b05.getD r [])).getD c false = false := by
      rw [hrand2, hR]
      simp
    rw [ho, h1, hout, hQf, hR]
    simp
  · intro hQ
    rw [ho, h1, hout, hQ]
    simp
  · intro hR hQ
    rw [ho, h1, hout, hQ, hR]
    simp
  · intro hM
    have hRf : (replacedIdx (ml.getD r []) ((stmOf getSTM inputs special).getD r [])
        (b08.getD r [])).getD c false = false := by
      rw [hrepl, hM]
      simp
    have hQf : (randomIdx (ml.getD r []) ((stmOf getSTM inputs special).getD r [])
        (b08.getD r []) (b05.getD r [])).getD c false = false := by
      rw [hrand2, hM]
      simp
    rw [ho, h1, hout, hQf, hRf]
    simp

/-- Witness for C5 at a concrete instance: one masked position whose
Bernoulli(0.8) draw is true, so it is a mask-token replacement. -/
theorem mask_tokens_three_way_witness :
    mask_tokens true 7 (fun _ => ([] : List Bool)) [[5]] [[1]] (some [[0]])
      [[true]] [[false]] [[9]] = Except.ok ([[7]], [[5]]) ∧
    (((replacedIdx [1] [false] [true]).getD 0 false = true →
        maskedAfterZeroing [1] [false] 0 = true) ∧
      ((randomIdx [1] [false] [true] [false]).getD 0 false = true →
        maskedAfterZeroing [1] [false] 0 = true) ∧
      ¬((replacedIdx [1] [false] [true]).getD 0 false = true ∧
        (randomIdx [1] [false] [true] [false]).getD 0 false = true) ∧
      (maskedAfterZeroing [1] [false] 0 = true →
        ((replacedIdx [1] [false] [true]).getD 0 false = true ∧
          (randomIdx [1] [false] [true] [false]).getD 0 false = false) ∨
        ((replacedIdx [1] [false] [true]).getD 0 false = false ∧
          (randomIdx [1] [false] [true] [false]).getD 0 false = true) ∨
        ((replacedIdx [1] [false] [true]).getD 0 false = false ∧
          (randomIdx [1] [false] [true] [false]).getD 0 false = false)) ∧
      ((replacedIdx [1] [false] [true]).getD 0 false = true →
        (([[7]] : List (List ℤ)).getD 0 []).getD 0 0 = 7) ∧
      ((randomIdx [1] [false] [true] [false]).getD 0 false = true →
        (([[7]] : List (List ℤ)).getD 0 []).getD 0 0 =
          (([[9]] : List (List ℤ)).getD 0 []).getD 0 0) ∧
      ((replacedIdx [1] [false] [true]).getD 0 false = false →
        (randomIdx [1] [false] [true] [false]).getD 0 false = false →
        (([[7]] : List (List ℤ)).getD 0 []).getD 0 0 =
          (([[5]] : List (List ℤ)).getD 0 []).getD 0 0) ∧
      (maskedAfterZeroing [1] [false] 0 = false →
        (([[7]] : List (List ℤ)).getD 0 []).getD 0 0 =
          (([[5]] : List (List ℤ)).getD 0 []).getD 0 0)) :=
  ⟨rfl, mask_tokens_three_way 7 (fun _ => ([] : List Bool)) [[5]] [[1]]
    (some [[0]]) [[true]] [[false]] [[9]] [[7]] [[5]] 0 0 1
    [1] [false] [true] [false] rfl rfl rfl rfl rfl
    (by decide) (by decide) (by decide) (by decide) (by decide) (by decide)
    rfl rfl rfl rfl rfl rfl (by decide)⟩

/-- Character codes of the full ASCII punctuation set
(codes 33-47, 58-64, 91-96, 123-126), as the spec's claimed membership set. -/
def claimedPunctCodes : List Nat :=
  [33, 34, 35, 36, 37, 38, 39, 40, 41, 42, 43, 44, 45, 46, 47,
   58, 59, 60, 61, 62, 63, 64, 91, 92, 93, 94, 95, 96, 123, 124, 125, 126]

/-- Modelled from the spec (claim C6 wording): the claimed word-start
classifier, true iff the token begins with the word-boundary marker, begins
with `<`, or the entire token equals one of the ASCII punctuation symbols or
the two currency glyphs (euro, code 8364; pound, code 163). -/
def claimedStartPiece (piece : String) : Bool :=
  firstCharIs piece wordBoundaryMarker || firstCharIs piece '<' ||
    (match piece.data with
     | [c] => claimedPunctCodes.contains c.toNat ||
         c.toNat = 8364 || c.toNat = 163
     | _ => false)

/-- The amended word-start classifier: as claimed, but the single-character
membership set drops the apostrophe (39), `<` (60), `=` (61), `>` (62) — the
ones absent from the code's punctuation literal — and the two currency
glyphs, which the code stores as utf-8 bytes objects that never compare equal
to a `str` token. -/
def amendedStartPiece (piece : String) : Bool :=
  firstCharIs piece wordBoundaryMarker || firstCharIs piece '<' ||
    (match piece.data with
     | [c] => (claimedPunctCodes.filter
         (fun k => !(k = 39 || k = 60 || k = 61 || k = 62))).contains c.toNat
     | _ => false)

/-- C6 counterexample: the euro-sign token.  The claim says the classifier
returns true on it (it is one of the two currency glyphs); the code returns
false, because the Python set holds the utf-8 *bytes* of the euro sign, which
a `str` token never equals in Python 3. -/
theorem is_start_piece_sp_claim_counterexample :
    _is_start_piece_sp "€" = false ∧ claimedStartPiece "€" = true := by
  constructor <;> rfl

/-- C6 (amended): the word-start classifier returns true exactly when the
token begins with the word-boundary marker, begins with `<`, or is a single
ASCII punctuation character other than the apostrophe, `<`, `=`, `>`
(a lone `<` is still accepted through the prefix rule); the currency glyphs
are never matched. -/
theorem is_start_piece_sp_amended (piece : String) :
    _is_start_piece_sp piece = amendedStartPiece piece := by
  have hlist : claimedPunctCodes.filter
      (fun k => !(k = 39 || k = 60 || k = 61 || k = 62)) = specialPieceCodes := by
    decide
  rcases hd : piece.data with _ | ⟨c, rest⟩
  · simp [_is_start_piece_sp, amendedStartPiece, hd]
  · cases rest with
    | nil =>
      simp only [_is_start_piece_sp, amendedStartPiece, hd, hlist]
    | cons d t =>
      simp [_is_start_piece_sp, amendedStartPiece, hd]

/-- C10: the grouper excludes only the cls and sep token strings, so the pad
token string `<pad>` (which begins with `<` and so starts its own group) is
groupable and, with mask probability 1 and the identity shuffle outcome,
receives mask label 1; only the later special-tokens-mask zeroing inside
`mask_tokens` keeps such a position unmasked, as the final conjunct shows on
the same shape with the pad position flagged special. -/
theorem whole_word_mask_pad_maskable :
    ("<pad>" ≠ "[CLS]" ∧ "<pad>" ≠ "[SEP]") ∧
    cand_indexes "[CLS]" "[SEP]" ["[CLS]", "▁a", "[SEP]", "<pad>"] = [[1], [3]] ∧
    (_whole_word_mask "[CLS]" "[SEP]" 1 512 ["[CLS]", "▁a", "[SEP]", "<pad>"]
      [[1], [3]]).getD 3 0 = 1 ∧
    (["[CLS]", "▁a", "[SEP]", "<pad>"].getD 3 "") = "<pad>" ∧
    mask_tokens true 99 (fun _ => ([] : List Bool)) [[10, 11, 12, 13]]
      [[0, 1, 0, 1]] (some [[1, 0, 1, 1]])
      [[true, true, true, true]] [[false, false, false, false]]
      [[0, 0, 0, 0]] =
      Except.ok ([[10, 99, 12, 13]], [[-100, 11, -100, -100]]) := by
  refine ⟨⟨by decide, by decide⟩, by decide, ?_, rfl, rfl⟩
  with_unfolding_all decide

/-- One batch example handed to `__call__`: either a raw id sequence (list /
1-D tensor) or a dict / BatchEncoding object. -/
inductive CollatorExample where
  | ids : List ℤ → CollatorExample
  | dict : List (String × List ℤ) → CollatorExample

/-- The collator's configuration together with its external collaborators
(tokenizer padding, raw-batch collation, id-to-token decoding, the
special-tokens-mask capability) and the shuffle outcome used for every row.
`pad` returns the padded batch as a string-keyed dict of (B, N) tensors,
which must contain the key `input_ids`. -/
structure CollatorEnv where
  cls : String
  sep : String
  maskId : ℤ
  mlm : Bool
  mlm_probability : ℚ
  pad : List CollatorExample → List (String × List (List ℤ))
  collate : List CollatorExample → List (List ℤ)
  convertIdsToTokens : List ℤ → List String
  getSTM : List ℤ → List Bool
  shuffle : List (List Nat) → List (List Nat)

/-- Python dict assignment `d[k] = v`: replace the value when the key is
present, otherwise append the new key (dict keys are unique). -/
def dictSet (d : List (String × List (List ℤ))) (k : String)
    (v : List (List ℤ)) : List (String × List (List ℤ)) :=
  if (List.lookup k d).isSome then
    d.map (fun p => if p.1 = k then (k, v) else p)
  else d ++ [(k, v)]

/-- Embeds `__call__(examples)` (lines 49-69).  `examples[0]` on an empty
list raises IndexError; the dict branch pads via the tokenizer, the raw
branch collates `input_ids` only; `special_tokens_mask` is popped from the
dict; mask labels are built per input row with `_whole_word_mask` (cap 512);
the collation of the equal-length mask-label rows into `batch_mask` is the
identity; finally `mask_tokens` produces the new `input_ids` and `labels`
entries of the returned dict. -/
def collatorCall (env : CollatorEnv) (b08 b05 : List (List Bool))
    (rand : List (List ℤ)) (examples : List CollatorExample) :
    Except CollatorErr (List (String × List (List ℤ))) :=
  match examples with
  | [] => Except.error CollatorErr.indexError
  | e0 :: _ =>
    let batch : List (String × List (List ℤ)) :=
      match e0 with
      | CollatorExample.dict _ => env.pad examples
      | CollatorExample.ids _ => [("input_ids", env.collate examples)]
    let special := List.lookup "special_tokens_mask" batch
    let batch1 := batch.filter (fun p => p.1 != "special_tokens_mask")
    match List.lookup "input_ids" batch1 with
    | none => Except.error CollatorErr.keyError
    | some inputIds =>
      let mask_labels := inputIds.map (fun e =>
        _whole_word_mask env.cls env.sep env.mlm_probability 512
          (env.convertIdsToTokens e)
          (env.shuffle (cand_indexes env.cls env.sep
            (env.convertIdsToTokens e))))
      match mask_tokens env.mlm env.maskId env.getSTM inputIds mask_labels
        special b08 b05 rand with
      | Except.error e => Except.error e
      | Except.ok (newInputs, labels) =>
        Except.ok (dictSet (dictSet batch1 "input_ids" newInputs)
          "labels" labels)

/-- A concrete collator environment used for concrete evaluations: Albert-like
cls/sep, mask id 4, mlm enabled, probability 1, a padding collaborator that
returns a one-example batch with an `input_ids` and a `special_tokens_mask`
key, and the identity shuffle. -/
def sampleEnv : CollatorEnv :=
  ⟨"[CLS]", "[SEP]", 4, true, 1,
   fun _ => [("input_ids", [[5]]), ("special_tokens_mask", [[0]])],
   fun _ => [[5]],
   fun l => l.map (fun _ => "▁a"),
   fun l => l.map (fun _ => false),
   fun gs => gs⟩

/-- C7 counterexample: calling the collator with an empty list of examples
does not return a degenerate empty result — `examples[0]` raises IndexError. -/
theorem collator_call_empty_counterexample :
    collatorCall sampleEnv [] [] [] [] = Except.error CollatorErr.indexError :=
  rfl

/-- C7 (amended): for every environment and every draw outcome, calling the
collator entry point with an empty list of examples aborts with IndexError
(raised by the `examples[0]` dispatch test) rather than returning a result. -/
theorem collator_call_empty_raises (env : CollatorEnv)
    (b08 b05 : List (List Bool)) (rand : List (List ℤ)) :
    collatorCall env b08 b05 rand [] = Except.error CollatorErr.indexError :=
  rfl


lemma lookup_cons_eq (a : String) (b : List (List ℤ))
    (l : List (String × List (List ℤ))) :
    List.lookup a ((a, b) :: l) = some b := by
  simp [List.lookup]

lemma lookup_cons_ne (k a : String) (b : List (List ℤ))
    (l : List (String × List (List ℤ))) (h : k ≠ a) :
    List.lookup k ((a, b) :: l) = List.lookup k l := by
  have hbe : (k == a) = false := by
    simpa [beq_iff_eq] using h
  rw [List.lookup, hbe]

lemma lookup_map_set (k : String) (v : List (List ℤ)) :
    ∀ d : List (String × List (List ℤ)),
      (List.lookup k d).isSome = true →
      List.lookup k (d.map (fun p => if p.1 = k then (k, v) else p)) = some v := by
  intro d
  induction d with
  | nil => intro h; simp at h
  | cons p d ih =>
    obtain ⟨a, b⟩ := p
    intro h
    by_cases hp : a = k
    · subst hp
      simp only [List.map_cons, if_pos rfl]
      exact lookup_cons_eq a v _
    · have hka : k ≠ a := fun he => hp he.symm
      simp only [List.map_cons, if_neg hp]
      rw [lookup_cons_ne k a b _ hka] at h
      rw [lookup_cons_ne k a b _ hka]
      exact ih h

lemma lookup_map_other (k k2 : String) (v : List (List ℤ)) (hne : k2 ≠ k) :
    ∀ d : List (String × List (List ℤ)),
      List.lookup k2 (d.map (fun p => if p.1 = k then (k, v) else p)) =
        List.lookup k2 d := by
  intro d
  induction d with
  | nil => rfl
  | cons p d ih =>
    obtain ⟨a, b⟩ := p
    by_cases hp : a = k
    · subst hp
      have hstep : List.map (fun p => if p.1 = a then (a, v) else p) ((a, b) :: d) =
          (a, v) :: List.map (fun p => if p.1 = a then (a, v) else p) d := by
        simp
      rw [hstep, lookup_cons_ne k2 a v _ hne, lookup_cons_ne k2 a b _ hne]
      exact ih
    · simp only [List.map_cons, if_neg hp]
      by_cases hk2 : k2 = a
      · subst hk2
        rw [lookup_cons_eq, lookup_cons_eq]
      · rw [lookup_cons_ne k2 a b _ hk2, lookup_cons_ne k2 a b _ hk2]
        exact ih

lemma lookup_append_single (k : String) (v : List (List ℤ)) :
    ∀ d : List (String × List (List ℤ)),
      (List.lookup k d).isSome = false →
      List.lookup k (d ++ [(k, v)]) = some v := by
  intro d
  induction d with
  | nil => intro _; exact lookup_cons_eq k v []
  | cons p d ih =>
    obtain ⟨a, b⟩ := p
    intro h
    by_cases hk : k = a
    · subst hk
      rw [lookup_cons_eq] at h
      simp at h
    · rw [lookup_cons_ne k a b _ hk] at h
      rw [List.cons_append, lookup_cons_ne k a b _ hk]
      exact ih h

lemma lookup_append_other (k k2 : String) (v : List (List ℤ)) (hne : k2 ≠ k) :
    ∀ d : List (String × List (List ℤ)),
      List.lookup k2 (d ++ [(k, v)]) = List.lookup k2 d := by
  intro d
  induction d with
  | nil => simpa [List.lookup] using lookup_cons_ne k2 k v [] hne
  | cons p d ih =>
    obtain ⟨a, b⟩ := p
    by_cases hk : k2 = a
    · subst hk
      rw [List.cons_append, lookup_cons_eq, lookup_cons_eq]
    · rw [List.cons_append, lookup_cons_ne k2 a b _ hk,
        lookup_cons_ne k2 a b _ hk]
      exact ih

lemma lookup_dictSet_self (d : List (String × List (List ℤ))) (k : String)
    (v : List (List ℤ)) :
    List.lookup k (dictSet d k v) = some v := by
  unfold dictSet
  by_cases h : (List.lookup k d).isSome
  · rw [if_pos h]
    exact lookup_map_set k v d h
  · rw [if_neg h]
    have hf : (List.lookup k d).isSome = false := by
      cases hh : (List.lookup k d).isSome
      · rfl
      · exact absurd hh h
    exact lookup_append_single k v d hf

lemma lookup_dictSet_other (d : List (String × List (List ℤ)))
    (k k2 : String) (v : List (List ℤ)) (hne : k2 ≠ k) :
    List.lookup k2 (dictSet d k v) = List.lookup k2 d := by
  unfold dictSet
  by_cases h : (List.lookup k d).isSome
  · rw [if_pos h]
    exact lookup_map_other k k2 v hne d
  · rw [if_neg h]
    exact lookup_append_other k k2 v hne d

lemma lookup_filter_self (k : String) :
    ∀ d : List (String × List (List ℤ)),
      List.lookup k (d.filter (fun p => p.1 != k)) = none := by
  intro d
  induction d with
  | nil => rfl
  | cons p d ih =>
    obtain ⟨a, b⟩ := p
    by_cases hp : a = k
    · have h0 : ((a, b).1 != k) = false := by simp [bne, hp]
      simp only [List.filter_cons, h0, Bool.false_eq_true, if_false]
      exact ih
    · have h1 : ((a, b).1 != k) = true := by
        simpa [bne, beq_iff_eq] using hp
      simp only [List.filter_cons, h1, if_true]
      rw [lookup_cons_ne k a b _ (fun he => hp he.symm)]
      exact ih

lemma lookup_filter_other (k k2 : String) (hne : k2 ≠ k) :
    ∀ d : List (String × List (List ℤ)),
      List.lookup k2 (d.filter (fun p => p.1 != k)) = List.lookup k2 d := by
  intro d
  induction d with
  | nil => rfl
  | cons p d ih =>
    obtain ⟨a, b⟩ := p
    by_cases hp : a = k
    · have h0 : ((a, b).1 != k) = false := by simp [bne, hp]
      simp only [List.filter_cons, h0, Bool.false_eq_true, if_false]
      rw [lookup_cons_ne k2 a b _ (by rw [hp] at *; exact hne)]
      exact ih
    · have h1 : ((a, b).1 != k) = true := by
        simpa [bne, beq_iff_eq] using hp
      simp only [List.filter_cons, h1, if_true]
      by_cases hk2 : k2 = a
      · subst hk2
        rw [lookup_cons_eq, lookup_cons_eq]
      · rw [lookup_cons_ne k2 a b _ hk2, lookup_cons_ne k2 a b _ hk2]
        exact ih

/-- C8 counterexample: a provided `special_tokens_mask` key is NOT passed
through to the returned mapping — `__call__` pops it from the batch dict and
consumes it.  At this concrete batch the padded dict contains the key, the
call succeeds, and the returned mapping does not contain the key. -/
theorem collator_call_stm_not_passed_through :
    List.lookup "special_tokens_mask"
      (sampleEnv.pad [CollatorExample.dict []]) = some [[0]] ∧
    collatorCall sampleEnv [[true]] [[false]] [[9]] [CollatorExample.dict []] =
      Except.ok [("input_ids", [[4]]), ("labels", [[5]])] ∧
    List.lookup "special_tokens_mask"
      ([("input_ids", [[4]]), ("labels", ([[5]] : List (List ℤ)))]) = none := by
  refine ⟨rfl, ?_, rfl⟩
  with_unfolding_all rfl

/-- C8 (amended): for every non-empty batch whose first example is a
dict/encoding, when mlm is enabled and the padded batch contains `input_ids`,
the call returns a mapping that contains `input_ids` and `labels`, passes
every other key of the padded batch through unchanged — except
`special_tokens_mask`, which is popped and consumed, and is absent from the
returned mapping. -/
theorem collator_call_keys
    (env : CollatorEnv) (b08 b05 : List (List Bool)) (rand : List (List ℤ))
    (d : List (String × List ℤ)) (rest : List CollatorExample)
    (inputIds : List (List ℤ))
    (hmlm : env.mlm = true)
    (hin : List.lookup "input_ids"
        ((env.pad (CollatorExample.dict d :: rest)).filter
          (fun p => p.1 != "special_tokens_mask")) = some inputIds) :
    ∃ res, collatorCall env b08 b05 rand (CollatorExample.dict d :: rest) =
        Except.ok res ∧
      (List.lookup "input_ids" res).isSome = true ∧
      (List.lookup "labels" res).isSome = true ∧
      (∀ k, k ≠ "input_ids" → k ≠ "labels" → k ≠ "special_tokens_mask" →
        List.lookup k res =
          List.lookup k (env.pad (CollatorExample.dict d :: rest))) ∧
      List.lookup "special_tokens_mask" res = none := by
  unfold collatorCall
  simp only [hin, hmlm, mask_tokens, Bool.true_eq_false, if_false]
  refine ⟨_, rfl, ?_, ?_, ?_, ?_⟩
  · rw [lookup_dictSet_other _ "labels" "input_ids" _ (by decide),
      lookup_dictSet_self]
    rfl
  · rw [lookup_dictSet_self]
    rfl
  · intro k h1 h2 h3
    rw [lookup_dictSet_other _ "labels" k _ h2,
      lookup_dictSet_other _ "input_ids" k _ h1,
      lookup_filter_other "special_tokens_mask" k h3]
  · rw [lookup_dictSet_other _ "labels" _ _ (by decide),
      lookup_dictSet_other _ "input_ids" _ _ (by decide),
      lookup_filter_self]

/-- Witness for C8 (amended) at the concrete sample environment, whose padded
batch holds `input_ids` and a `special_tokens_mask` key. -/
theorem collator_call_keys_witness :
    ∃ res, collatorCall sampleEnv [[true]] [[false]] [[9]]
        [CollatorExample.dict []] = Except.ok res ∧
      (List.lookup "input_ids" res).isSome = true ∧
      (List.lookup "labels" res).isSome = true ∧
      (∀ k, k ≠ "input_ids" → k ≠ "labels" → k ≠ "special_tokens_mask" →
        List.lookup k res = List.lookup k
          (sampleEnv.pad [CollatorExample.dict []])) ∧
      List.lookup "special_tokens_mask" res = none :=
  collator_call_keys sampleEnv [[true]] [[false]] [[9]] [] [] [[5]] rfl rfl
